import Mathlib

/-!
Verification of the covid19API pipeline (app/main.py and app/utils/get_data.py):
route handlers for country and time-series queries, the country-code resolver,
the cache-aside wrapper, the backward date probe and the raw-table normalization.
-/

namespace Covid

/-! ## String helpers mirroring Python primitives -/

/-- Characters of a string lowercased, mirroring Python `str.lower()` on ASCII data. -/
def pyLower (s : String) : String := String.mk (s.data.map Char.toLower)

/-- Python single-character `str.split(sep)`: cut a character list at every
occurrence of the separator. -/
def pySplit (sep : Char) : List Char → List (List Char)
  | [] => [[]]
  | c :: cs =>
    let r := pySplit sep cs
    if c = sep then [] :: r else (c :: r.headD []) :: r.tail

/-- Whether `hay` starts with `needle`. -/
def startsL (needle hay : List Char) : Bool :=
  match needle, hay with
  | [], _ => true
  | _ :: _, [] => false
  | n :: ns, h :: hs => n == h && startsL ns hs

/-- Python substring test `needle in hay` on character lists. -/
def containsL (needle hay : List Char) : Bool :=
  match hay with
  | [] => startsL needle []
  | h :: hs => startsL needle (h :: hs) || containsL needle hs

/-! ## Dynamic values exchanged between facades and route handlers -/

/-- Dynamic JSON-like values passed between the facades and the route handlers. -/
inductive Jv where
  | str : String → Jv
  | num : Int → Jv
  | arr : List Jv → Jv
  | obj : List (String × Jv) → Jv

/-- Python dict field access `d[k]` / `d.get(k)` on an object value. -/
def Jv.get : Jv → String → Option Jv
  | .obj fs, k => (fs.find? (fun p => p.1 == k)).map (fun p => p.2)
  | _, _ => none

/-- View a dynamic value as a string. -/
def Jv.asStr : Jv → Option String
  | .str s => some s
  | _ => none

/-- View a dynamic value as an array. -/
def Jv.asArr : Jv → Option (List Jv)
  | .arr xs => some xs
  | _ => none

/-- Whether a dynamic value is an array. -/
def Jv.isArr : Jv → Bool
  | .arr _ => true
  | _ => false

/-- Python dict assignment `d[k] = v` on a field list: replace the entry when the
key is present, append otherwise. -/
def setField (fs : List (String × Jv)) (k : String) (v : Jv) : List (String × Jv) :=
  if fs.any (fun p => p.1 == k) then fs.map (fun p => if p.1 == k then (k, v) else p)
  else fs ++ [(k, v)]

/-- Python dict assignment `d[k] = v` on a dynamic value; fails off objects. -/
def setF (j : Jv) (k : String) (v : Jv) : Option Jv :=
  match j with
  | .obj fs => some (.obj (setField fs k v))
  | _ => none

/-- Python dict field access on a field list. -/
def dictGetJ (raw : List (String × Jv)) (k : String) : Option Jv :=
  (raw.find? (fun p => p.1 == k)).map (fun p => p.2)

/-- An HTTP error response raised by a handler. -/
structure HttpError where
  status : Nat
  detail : String
  deriving DecidableEq

/-! ## `lookup_country` and the country routes of app/main.py -/

/-- `lookup_country` from app/main.py: resolve a code through the reference table
(pycountry, modelled as the table parameter), then keep the part before the first
comma, else the part after the last space. -/
def lookup_country (table : String → Option String) (country_code : String) : Option String :=
  match table country_code with
  | none => none
  | some country_name =>
    if ',' ∈ country_name.data then
      some (String.mk ((pySplit ',' country_name.data).headD []))
    else if ' ' ∈ country_name.data then
      some (String.mk ((pySplit ' ' country_name.data).getLastD []))
    else
      some country_name

/-- The guard shared by both country routes: `country_name.lower() not in ['us', 'uk']
and len(country_name) in [2]`. -/
def isCodeQuery (cn : String) : Bool :=
  !(pyLower cn == "us") && !(pyLower cn == "uk") && cn.length == 2

/-- The filtered dictionary computed inside the try block of the v1 `/country/{name}`
route: substring match on the resolved name for a code query, case-insensitive
equality otherwise. -/
def v1MatchDict (table : String → Option String) (raw : List (String × Jv)) (cn : String) :
    Option (List (String × Jv)) :=
  if isCodeQuery cn then
    match lookup_country table cn with
    | none => none
    | some name => some (raw.filter (fun p => containsL (pyLower name).data (pyLower p.1).data))
  else
    some (raw.filter (fun p => pyLower cn == pyLower p.1))

/-- The v1 `/country/{name}` handler from app/main.py: filter the current-status
dictionary, then copy the `dt` and `ts` entries; any failure inside the try block
becomes HTTP 404. -/
def country (table : String → Option String) (raw : List (String × Jv)) (cn : String) :
    Except HttpError (List (String × Jv)) :=
  match v1MatchDict table raw cn, dictGetJ raw "dt", dictGetJ raw "ts" with
  | some data, some dtv, some tsv => .ok (setField (setField data "dt" dtv) "ts" tsv)
  | _, _, _ => .error ⟨404, "Item not found"⟩

/-- The Python list comprehension filter, aborting when the predicate raises. -/
def filterO (p : Jv → Option Bool) : List Jv → Option (List Jv)
  | [] => some []
  | x :: xs =>
    match p x, filterO p xs with
    | some b, some rest => some (if b then x :: rest else rest)
    | _, _ => none

/-- Predicate of the v2 code-query comprehension: the resolved name occurs inside
the record's location, case-insensitively. -/
def v2SubPred (name : String) (i : Jv) : Option Bool :=
  match (i.get "location").bind Jv.asStr with
  | some loc => some (containsL (pyLower name).data (pyLower loc).data)
  | none => none

/-- Predicate of the v2 name-query comprehension: case-insensitive equality with
the record's location. -/
def v2EqPred (cn : String) (i : Jv) : Option Bool :=
  match (i.get "location").bind Jv.asStr with
  | some loc => some (pyLower cn == pyLower loc)
  | none => none

/-- The match list computed inside the try block of the v2 `/v2/country/{name}` route. -/
def v2MatchList (table : String → Option String) (records : List Jv) (cn : String) :
    Option (List Jv) :=
  if isCodeQuery cn then
    match lookup_country table cn with
    | none => none
    | some name => filterO (v2SubPred name) records
  else
    filterO (v2EqPred cn) records

/-- The v2 `/v2/country/{name}` handler from app/main.py: filter the records of the
`data` field, then overwrite `data` with the first match; any failure inside the
try block becomes HTTP 404. -/
def get_country (table : String → Option String) (raw : Jv) (cn : String) :
    Except HttpError Jv :=
  match ((raw.get "data").bind Jv.asArr).bind (fun records =>
      (v2MatchList table records cn).bind (fun ms =>
        ms.head?.bind (fun first => setF raw "data" first))) with
  | some v => .ok v
  | none => .error ⟨404, "Item not found"⟩

/-! ## The time-series routes of app/main.py -/

/-- The v1 `/timeseries/{case}` handler; the outer `none` models an uncaught lookup
failure on the raw dictionary (no try block protects it in the source). -/
def timeseries (raw : List (String × Jv)) (cs : String) :
    Option (Except HttpError (List (String × Jv))) :=
  let c := pyLower cs
  if c == "confirmed" || c == "deaths" || c == "recovered" then
    match dictGetJ raw c, dictGetJ raw "dt", dictGetJ raw "ts" with
    | some v, some dtv, some tsv => some (.ok (setField (setField [(c, v)] "dt" dtv) "ts" tsv))
    | _, _, _ => none
  else
    some (.error ⟨404, "Item not found"⟩)

/-- The v2 `/v2/timeseries/{case}` handler from app/main.py. -/
def get_time_series (facade : String → Jv) (cs : String) : Except HttpError Jv :=
  if !(pyLower cs == "global" || pyLower cs == "confirmed" || pyLower cs == "deaths" ||
      pyLower cs == "recovered") then
    .error ⟨404, "Item not found"⟩
  else
    .ok (facade (pyLower cs))

/-! ## The six plain v2 routes of app/main.py -/

/-- The v2 `/v2/current` handler: surface a facade failure as HTTP 400 whose detail
is the exception carried by the facade call. -/
def get_current (call : Except String Jv) : Except HttpError Jv :=
  match call with
  | .ok data => .ok data
  | .error e => .error ⟨400, e⟩

/-- The v2 `/v2/total` handler. -/
def get_total (call : Except String Jv) : Except HttpError Jv :=
  match call with
  | .ok data => .ok data
  | .error e => .error ⟨400, e⟩

/-- The v2 `/v2/confirmed` handler. -/
def get_confirmed (call : Except String Jv) : Except HttpError Jv :=
  match call with
  | .ok data => .ok data
  | .error e => .error ⟨400, e⟩

/-- The v2 `/v2/deaths` handler. -/
def get_deaths (call : Except String Jv) : Except HttpError Jv :=
  match call with
  | .ok data => .ok data
  | .error e => .error ⟨400, e⟩

/-- The v2 `/v2/recovered` handler. -/
def get_recovered (call : Except String Jv) : Except HttpError Jv :=
  match call with
  | .ok data => .ok data
  | .error e => .error ⟨400, e⟩

/-- The v2 `/v2/active` handler. -/
def get_active (call : Except String Jv) : Except HttpError Jv :=
  match call with
  | .ok data => .ok data
  | .error e => .error ⟨400, e⟩

/-! ## get_data.py: backward date probe -/

/-- The backward date probe of `get_data_daily_reports`: dates are day numbers,
`ex d` says the resource for day `d` exists (the remote answer is not 404), `k` is
the offset already walked back, and `fuel` bounds the unrolling of the source's
unbounded while loop. -/
def probeAux (ex : Int → Bool) (ref : Int) : Nat → Nat → Option Int
  | 0, _ => none
  | fuel + 1, k => if ex (ref - k) then some (ref - k) else probeAux ex ref fuel (k + 1)

/-- Run the backward date probe from the reference date itself. -/
def probe (ex : Int → Bool) (ref : Int) (fuel : Nat) : Option Int := probeAux ex ref fuel 0

/-! ## get_data.py: daily-report normalization -/

/-- One raw numeric cell of a daily-report table: missing (NaN), the empty string,
or a number. -/
inductive RawCell where
  | missing : RawCell
  | emptyStr : RawCell
  | num : Int → RawCell
  deriving DecidableEq

/-- The four concerned numeric columns of one raw daily-report row. -/
structure RawRow where
  confirmed : RawCell
  deaths : RawCell
  recovered : RawCell
  active : RawCell
  deriving DecidableEq

/-- One normalized daily-report row. -/
structure NormRow where
  confirmed : Int
  deaths : Int
  recovered : Int
  active : Int
  deriving DecidableEq

/-- pandas `fillna(0)` on one cell. -/
def fillna0 : RawCell → RawCell
  | .missing => .num 0
  | c => c

/-- pandas `replace('', 0)` on one cell. -/
def replaceEmpty0 : RawCell → RawCell
  | .emptyStr => .num 0
  | c => c

/-- pandas `astype(int)` on one cell; fails on anything that is not a number. -/
def astypeInt : RawCell → Option Int
  | .num n => some n
  | _ => none

/-- The per-cell pipeline of `get_data_daily_reports`: fill missing with 0, replace
the empty string with 0, cast to integer. -/
def normCell (c : RawCell) : Option Int := astypeInt (replaceEmpty0 (fillna0 c))

/-- The per-row numeric pipeline of `get_data_daily_reports`. -/
def normRow (r : RawRow) : Option NormRow :=
  match normCell r.confirmed, normCell r.deaths, normCell r.recovered, normCell r.active with
  | some c, some d, some rv, some a => some ⟨c, d, rv, a⟩
  | _, _, _, _ => none

/-- Apply the row pipeline to every row of the table. -/
def mapO (f : RawRow → Option NormRow) : List RawRow → Option (List NormRow)
  | [] => some []
  | r :: rs =>
    match f r, mapO f rs with
    | some o, some os => some (o :: os)
    | _, _ => none

/-- The numeric post-processing of `get_data_daily_reports` applied to a raw table. -/
def get_data_daily_reports (rows : List RawRow) : Option (List NormRow) :=
  mapO normRow rows

/-- The four numeric cells of a raw row. -/
def rowCellsB (r : RawRow) : List RawCell := [r.confirmed, r.deaths, r.recovered, r.active]

/-- A raw cell that is a number is non-negative (vacuously true off numbers). -/
def cellNonnegB : RawCell → Bool
  | .num n => decide (0 ≤ n)
  | _ => true

/-! ## get_data.py: lookup table -/

/-- One row of the country lookup table. -/
structure LookupRow where
  iso2 : String
  countryRegion : String
  deriving DecidableEq

/-- Python dict insertion `d[k] = v`. -/
def dictInsert (d : List (String × String)) (k v : String) : List (String × String) :=
  if d.any (fun p => p.1 == k) then d.map (fun p => if p.1 == k then (k, v) else p)
  else d ++ [(k, v)]

/-- Python dict field access on the referral dictionary. -/
def dictGetS (d : List (String × String)) (k : String) : Option String :=
  (d.find? (fun p => p.1 == k)).map (fun p => p.2)

/-- The referral-dictionary comprehension of `get_data_lookup_table`:
`{v['iso2']: v['Country_Region'] for v in data}`. -/
def get_data_lookup_table (rows : List LookupRow) : List (String × String) :=
  rows.foldl (fun d r => dictInsert d r.iso2 r.countryRegion) []

/-! ## main.py: v2 cache-aside wrapper -/

/-- External key-value store slot: serialized payload with its absolute expiry second. -/
structure CacheState (σ : Type) where
  entry : Option (σ × Nat)
  deriving DecidableEq

/-- redis `GET` at absolute time `t`. -/
def redisGet {σ : Type} (s : CacheState σ) (t : Nat) : Option σ :=
  match s.entry with
  | some (v, e) => if t < e then some v else none
  | none => none

/-- Outcome of one wrapper call: the model handed to the handler, the store state
after the call, and how many times the builder ran. -/
structure ReloadResult (α σ : Type) where
  model : α
  state : CacheState σ
  builderCalls : Nat

/-- The `reload_model_api_v2` wrapper body from app/main.py: on a missing or expired
entry build the model and `setex` its serialization for 3600 seconds, otherwise
deserialize the stored value. -/
def reload_model_api_v2 {α σ : Type} (builder : Unit → α) (dumps : α → σ) (loads : σ → α)
    (t : Nat) (s : CacheState σ) : ReloadResult α σ :=
  match redisGet s t with
  | none =>
    let m := builder ()
    ⟨m, ⟨some (dumps m, t + 3600)⟩, 1⟩
  | some v => ⟨loads v, s, 0⟩

/-! ## Concrete sample values used by witnesses and counterexamples -/

/-- A reference table that knows no code at all. -/
def tblNone : String → Option String := fun _ => none

/-- A reference table resolving the alpha-2 code kr. -/
def tblKr : String → Option String := fun c => if c == "kr" then some "Korea, Republic of" else none

/-- Sample v1 current-status dictionary: one location plus the dt and ts entries. -/
def raw1w : List (String × Jv) := [("Thailand", Jv.num 5), ("dt", Jv.str "d"), ("ts", Jv.num 9)]

/-- Sample v2 current payload whose record list is empty. -/
def rawV2empty : Jv := Jv.obj [("data", Jv.arr [])]

/-- First of two records matching the Thailand query case-insensitively. -/
def rec2A : Jv := Jv.obj [("location", Jv.str "Thailand"), ("confirmed", Jv.num 7)]

/-- Second of two records matching the Thailand query case-insensitively. -/
def rec2B : Jv := Jv.obj [("location", Jv.str "THAILAND"), ("confirmed", Jv.num 8)]

/-- Sample v2 current payload whose record list holds two matching records. -/
def raw2Two : Jv := Jv.obj [("data", Jv.arr [rec2A, rec2B]), ("dt", Jv.str "d")]

/-- The value the v2 country route returns for Thailand on `raw2Two`. -/
def out2Two : Jv := Jv.obj [("data", rec2A), ("dt", Jv.str "d")]

/-- Existence oracle for the probe witness: only day 5 has a resource. -/
def exW : Int → Bool := fun d => d == 5

/-- Sample raw daily-report table with a missing and an empty cell. -/
def rowsW : List RawRow := [⟨.missing, .emptyStr, .num 3, .num 0⟩]

/-- Sample facade output for the time-series witness. -/
def facadeW : String → Jv := fun _ => Jv.num 0

/-! # Theorems -/

/-! ## Generic association-list lemmas -/

theorem find_map_self {β : Type} (k : String) (v : β) :
    ∀ d : List (String × β), d.any (fun p => p.1 == k) = true →
      (d.map (fun p => if p.1 == k then (k, v) else p)).find? (fun p => p.1 == k) =
        some (k, v) := by
  intro d
  induction d with
  | nil => intro h; simp at h
  | cons p ps ih =>
    intro h
    cases hp : (p.1 == k) with
    | true =>
      simp only [List.map_cons]
      rw [if_pos hp]
      exact List.find?_cons_of_pos _ (by simp)
    | false =>
      have hps : ps.any (fun p => p.1 == k) = true := by
        simpa [List.any_cons, hp] using h
      simp only [List.map_cons]
      rw [if_neg (by simp [hp])]
      rw [List.find?_cons_of_neg _ (by simp [hp])]
      exact ih hps

theorem find_app_self {β : Type} (k : String) (v : β) :
    ∀ d : List (String × β), d.any (fun p => p.1 == k) = false →
      (d ++ [(k, v)]).find? (fun p => p.1 == k) = some (k, v) := by
  intro d
  induction d with
  | nil => intro _; exact List.find?_cons_of_pos _ (by simp)
  | cons p ps ih =>
    intro h
    simp only [List.any_cons, Bool.or_eq_false_iff] at h
    simp only [List.cons_append]
    rw [List.find?_cons_of_neg _ (by simp [h.1])]
    exact ih h.2

theorem find_map_ne {β : Type} (k k' : String) (v : β) (hkk : (k == k') = false) :
    ∀ d : List (String × β),
      (d.map (fun p => if p.1 == k then (k, v) else p)).find? (fun p => p.1 == k') =
        d.find? (fun p => p.1 == k') := by
  intro d
  induction d with
  | nil => rfl
  | cons p ps ih =>
    cases hp : (p.1 == k) with
    | true =>
      have hpk : p.1 = k := by simpa using hp
      have hp' : (p.1 == k') = false := by rw [hpk]; exact hkk
      simp only [List.map_cons]
      rw [if_pos hp]
      rw [List.find?_cons_of_neg _ (by simp [hkk]), List.find?_cons_of_neg _ (by simp [hp'])]
      exact ih
    | false =>
      cases hq : (p.1 == k') with
      | true =>
        simp only [List.map_cons]
        rw [if_neg (by simp [hp])]
        rw [List.find?_cons_of_pos _ (by simp [hq]), List.find?_cons_of_pos _ (by simp [hq])]
      | false =>
        simp only [List.map_cons]
        rw [if_neg (by simp [hp])]
        rw [List.find?_cons_of_neg _ (by simp [hq]), List.find?_cons_of_neg _ (by simp [hq])]
        exact ih

theorem find_app_ne {β : Type} (k k' : String) (v : β) (hkk : (k == k') = false) :
    ∀ d : List (String × β),
      (d ++ [(k, v)]).find? (fun p => p.1 == k') = d.find? (fun p => p.1 == k') := by
  intro d
  induction d with
  | nil =>
    simp only [List.nil_append]
    rw [List.find?_cons_of_neg _ (by simp [hkk])]
  | cons p ps ih =>
    cases hq : (p.1 == k') with
    | true =>
      simp only [List.cons_append]
      rw [List.find?_cons_of_pos _ (by simp [hq]), List.find?_cons_of_pos _ (by simp [hq])]
    | false =>
      simp only [List.cons_append]
      rw [List.find?_cons_of_neg _ (by simp [hq]), List.find?_cons_of_neg _ (by simp [hq])]
      exact ih

/-! ## C3: daily-report normalization -/

theorem normCell_spec (c : RawCell) :
    ∃ n : Int, normCell c = some n ∧ (cellNonnegB c = true → 0 ≤ n) := by
  cases c with
  | missing => exact ⟨0, rfl, fun _ => le_refl 0⟩
  | emptyStr => exact ⟨0, rfl, fun _ => le_refl 0⟩
  | num n => exact ⟨n, rfl, fun h => by simpa [cellNonnegB] using h⟩

theorem normRow_spec (r : RawRow) :
    ∃ o : NormRow, normRow r = some o ∧
      ((rowCellsB r).all cellNonnegB = true →
        0 ≤ o.confirmed ∧ 0 ≤ o.deaths ∧ 0 ≤ o.recovered ∧ 0 ≤ o.active) := by
  obtain ⟨c, hc, hcn⟩ := normCell_spec r.confirmed
  obtain ⟨d, hd, hdn⟩ := normCell_spec r.deaths
  obtain ⟨rv, hr, hrn⟩ := normCell_spec r.recovered
  obtain ⟨a, ha, han⟩ := normCell_spec r.active
  refine ⟨⟨c, d, rv, a⟩, ?_, ?_⟩
  · simp only [normRow]
    rw [hc, hd, hr, ha]
  · intro hall
    simp only [rowCellsB, List.all_cons, List.all_nil, Bool.and_true, Bool.and_eq_true] at hall
    exact ⟨hcn hall.1, hdn hall.2.1, hrn hall.2.2.1, han hall.2.2.2⟩

/-- C3 (amended): normalization always succeeds with no empty or missing cell left
in the four numeric columns and one integer per cell; the values are moreover
non-negative whenever every numeric value present in the raw table is non-negative
(the code does not clamp negative inputs). -/
theorem c3_normalized_reports (rows : List RawRow) :
    ∃ out, get_data_daily_reports rows = some out ∧ out.length = rows.length ∧
      ((∀ r ∈ rows, (rowCellsB r).all cellNonnegB = true) →
        ∀ o ∈ out, 0 ≤ o.confirmed ∧ 0 ≤ o.deaths ∧ 0 ≤ o.recovered ∧ 0 ≤ o.active) := by
  induction rows with
  | nil =>
    refine ⟨[], rfl, rfl, ?_⟩
    intro _ o ho
    simp at ho
  | cons r rs ih =>
    obtain ⟨out, hout, hlen, himp⟩ := ih
    obtain ⟨o, ho, hon⟩ := normRow_spec r
    refine ⟨o :: out, ?_, ?_, ?_⟩
    · simp only [get_data_daily_reports, mapO] at hout ⊢
      rw [ho, hout]
    · simp [hlen]
    · intro hall o' ho'
      rcases List.mem_cons.mp ho' with h | h
      · subst h
        exact hon (hall r (List.mem_cons_self r rs))
      · exact himp (fun x hx => hall x (List.mem_cons_of_mem _ hx)) o' h

/-- C3 counterexample: a raw table carrying a negative number normalizes to a
negative integer, refuting unconditional non-negativity. -/
theorem c3_counterexample :
    get_data_daily_reports [⟨.num (-1), .num 0, .num 0, .num 0⟩] =
      some [⟨-1, 0, 0, 0⟩] ∧ ¬ (0 ≤ (-1 : Int)) :=
  ⟨rfl, by decide⟩

/-- C3 witness: on a concrete table with a missing and an empty cell the pipeline
fills both with zero and every output value is non-negative. -/
theorem c3_witness :
    ∃ out, get_data_daily_reports rowsW = some out ∧ out.length = rowsW.length ∧
      ∀ o ∈ out, 0 ≤ o.confirmed ∧ 0 ≤ o.deaths ∧ 0 ≤ o.recovered ∧ 0 ≤ o.active := by
  obtain ⟨out, h1, h2, h3⟩ := c3_normalized_reports rowsW
  exact ⟨out, h1, h2, h3 (by decide)⟩

/-! ## C4: the backward probe finds the first existing date -/

theorem probeAux_sound (ex : Int → Bool) (ref : Int) :
    ∀ (fuel k : Nat) (d : Int), probeAux ex ref fuel k = some d →
      ∃ j : Nat, k ≤ j ∧ d = ref - j ∧ ex (ref - j) = true ∧
        ∀ i : Nat, k ≤ i → i < j → ex (ref - i) = false := by
  intro fuel
  induction fuel with
  | zero => intro k d h; simp [probeAux] at h
  | succ n ih =>
    intro k d h
    simp only [probeAux] at h
    cases hx : ex (ref - k) with
    | true =>
      rw [hx, if_pos rfl] at h
      cases h
      exact ⟨k, le_refl k, rfl, hx, fun i hk hik => absurd hik (by omega)⟩
    | false =>
      rw [hx] at h
      simp only [Bool.false_eq_true, if_false] at h
      obtain ⟨j, hkj, hdj, hexj, hmin⟩ := ih (k + 1) d h
      refine ⟨j, by omega, hdj, hexj, ?_⟩
      intro i hki hij
      rcases Nat.eq_or_lt_of_le hki with he | hlt
      · rw [← he]
        exact hx
      · exact hmin i (by omega) hij

theorem probeAux_complete (ex : Int → Bool) (ref : Int) :
    ∀ (fuel k j : Nat), k ≤ j → j < k + fuel → ex (ref - j) = true →
      ∃ d, probeAux ex ref fuel k = some d := by
  intro fuel
  induction fuel with
  | zero => intro k j h1 h2 _; omega
  | succ n ih =>
    intro k j h1 h2 h3
    cases hx : ex (ref - k) with
    | true =>
      refine ⟨ref - k, ?_⟩
      simp only [probeAux]
      rw [hx, if_pos rfl]
    | false =>
      have hkj : k ≠ j := by
        intro he
        rw [he, h3] at hx
        cases hx
      obtain ⟨d, hd⟩ := ih (k + 1) j (by omega) (by omega) h3
      refine ⟨d, ?_⟩
      simp only [probeAux]
      rw [hx]
      simpa using hd

/-- C4: whenever some day at or before the reference date has an existing resource,
the probe of get_data_daily_reports terminates and returns a date at most the
reference date; that date carries an existing resource and every strictly later
date up to the reference date answers the remote not-found signal. -/
theorem c4_probe_first_existing (ex : Int → Bool) (ref : Int) (k0 : Nat)
    (h : ex (ref - (k0 : Int)) = true) :
    ∃ d : Int, d ≤ ref ∧ ex d = true ∧ (∀ e : Int, d < e → e ≤ ref → ex e = false) ∧
      ∀ fuel : Nat, k0 < fuel → probe ex ref fuel = some d := by
  obtain ⟨d, hd⟩ := probeAux_complete ex ref (k0 + 1) 0 k0 (Nat.zero_le _) (by omega) h
  obtain ⟨j, _, hdj, hexj, hmin⟩ := probeAux_sound ex ref (k0 + 1) 0 d hd
  have hjd : d = ref - (j : Int) := hdj
  refine ⟨d, by omega, by rw [hjd]; exact hexj, ?_, ?_⟩
  · intro e hde her
    have hnn : (0 : Int) ≤ ref - e := by omega
    have hi : (((ref - e).toNat : Int)) = ref - e := Int.toNat_of_nonneg hnn
    have hij : (ref - e).toNat < j := by omega
    have hfalse := hmin (ref - e).toNat (Nat.zero_le _) hij
    have hre : ref - (((ref - e).toNat : Nat) : Int) = e := by omega
    rwa [hre] at hfalse
  · intro fuel hf
    obtain ⟨d', hd'⟩ := probeAux_complete ex ref fuel 0 k0 (Nat.zero_le _) (by omega) h
    obtain ⟨j', _, hdj', hexj', hmin'⟩ := probeAux_sound ex ref fuel 0 d' hd'
    have hjj : j = j' := by
      by_contra hne
      rcases Nat.lt_or_ge j j' with hlt | hge
      · have := hmin' j (Nat.zero_le _) hlt
        rw [this] at hexj
        cases hexj
      · have hlt' : j' < j := by omega
        have := hmin j' (Nat.zero_le _) hlt'
        rw [this] at hexj'
        cases hexj'
    have : d' = d := by rw [hdj', hjd, hjj]
    rw [probe, hd', this]

/-- C4 witness: with a resource only on day 5 and reference day 7, the probe
returns day 5, which is at most 7, exists, and is the first found walking back. -/
theorem c4_witness :
    ∃ d : Int, probe exW 7 3 = some d ∧ d ≤ 7 ∧ exW d = true := by
  obtain ⟨d, h1, h2, _, h4⟩ := c4_probe_first_existing exW 7 2 (by decide)
  exact ⟨d, h4 3 (by decide), h1, h2⟩

/-! ## C10: the referral dictionary of get_data_lookup_table -/

theorem dictGetS_insert_self (d : List (String × String)) (k v : String) :
    dictGetS (dictInsert d k v) k = some v := by
  by_cases h : d.any (fun p => p.1 == k) = true
  · simp only [dictInsert, dictGetS]
    rw [if_pos h, find_map_self k v d h]
    rfl
  · have h' : d.any (fun p => p.1 == k) = false := by rwa [Bool.not_eq_true] at h
    simp only [dictInsert, dictGetS]
    rw [if_neg (by simp [h']), find_app_self k v d h']
    rfl

theorem dictGetS_insert_ne (d : List (String × String)) (k v k' : String) (h : k' ≠ k) :
    dictGetS (dictInsert d k v) k' = dictGetS d k' := by
  have hkk : (k == k') = false := by
    simp [Ne.symm h]
  by_cases hany : d.any (fun p => p.1 == k) = true
  · simp only [dictInsert, dictGetS]
    rw [if_pos hany, find_map_ne k k' v hkk d]
  · have h' : d.any (fun p => p.1 == k) = false := by rwa [Bool.not_eq_true] at hany
    simp only [dictInsert, dictGetS]
    rw [if_neg (by simp [h']), find_app_ne k k' v hkk d]

theorem gdlt_find (rows : List LookupRow) (k : String) :
    dictGetS (get_data_lookup_table rows) k =
      (rows.reverse.find? (fun r => r.iso2 == k)).map (fun r => r.countryRegion) := by
  induction rows using List.reverseRecOn with
  | nil => rfl
  | append_singleton rs r ih =>
    have hfold : get_data_lookup_table (rs ++ [r]) =
        dictInsert (get_data_lookup_table rs) r.iso2 r.countryRegion := by
      simp [get_data_lookup_table, List.foldl_append]
    rw [hfold, List.reverse_append]
    simp only [List.reverse_cons, List.reverse_nil, List.nil_append, List.singleton_append]
    cases hk : (r.iso2 == k) with
    | true =>
      have hk' : k = r.iso2 := by
        have : r.iso2 = k := by simpa using hk
        exact this.symm
      rw [List.find?_cons_of_pos _ (by simp [hk]), hk', dictGetS_insert_self]
      rfl
    | false =>
      have hne : k ≠ r.iso2 := by
        intro he
        rw [he] at hk
        simp at hk
      rw [List.find?_cons_of_neg _ (by simp [hk]), dictGetS_insert_ne _ _ _ _ hne]
      exact ih

/-- C10: the referral dictionary built by get_data_lookup_table has as keys exactly
the iso2 values occurring in the table, and a duplicated iso2 code is mapped to the
Country_Region of the last such row in table order. -/
theorem c10_lookup_table (rows : List LookupRow) (k : String) :
    ((dictGetS (get_data_lookup_table rows) k).isSome ↔ k ∈ rows.map (fun r => r.iso2)) ∧
    dictGetS (get_data_lookup_table rows) k =
      (rows.reverse.find? (fun r => r.iso2 == k)).map (fun r => r.countryRegion) := by
  refine ⟨?_, gdlt_find rows k⟩
  rw [gdlt_find rows k]
  simp only [Option.isSome_map', List.find?_isSome, List.mem_reverse, List.mem_map,
    beq_iff_eq]

/-! ## C8: lookup_country post-processing -/

theorem pySplit_ne_nil (sep : Char) : ∀ l : List Char, pySplit sep l ≠ [] := by
  intro l
  cases l with
  | nil => simp [pySplit]
  | cons c cs =>
    simp only [pySplit]
    by_cases h : c = sep
    · rw [if_pos h]
      simp
    · rw [if_neg h]
      simp

theorem pySplit_not_mem (sep : Char) : ∀ l : List Char, sep ∉ l → pySplit sep l = [l] := by
  intro l
  induction l with
  | nil => intro _; rfl
  | cons c cs ih =>
    intro h
    have hc : c ≠ sep := fun he => h (by rw [he]; exact List.mem_cons_self _ _)
    have hcs : sep ∉ cs := fun hm => h (List.mem_cons_of_mem _ hm)
    simp only [pySplit]
    rw [if_neg hc, ih hcs]
    rfl

theorem pySplit_length2 (sep : Char) : ∀ l : List Char, sep ∈ l →
    2 ≤ (pySplit sep l).length := by
  intro l
  induction l with
  | nil => intro h; cases h
  | cons c cs ih =>
    intro h
    simp only [pySplit]
    by_cases hc : c = sep
    · rw [if_pos hc]
      have hne := pySplit_ne_nil sep cs
      have hlen : 1 ≤ (pySplit sep cs).length := by
        cases hp : pySplit sep cs with
        | nil => exact absurd hp hne
        | cons a t => simp
      simp only [List.length_cons]
      omega
    · rw [if_neg hc]
      have hcs : sep ∈ cs := by
        rcases List.mem_cons.mp h with he | hm
        · exact absurd he.symm hc
        · exact hm
      have h2 := ih hcs
      simp only [List.length_cons, List.length_tail]
      omega

theorem pySplit_head_spec (sep : Char) : ∀ l : List Char, sep ∈ l →
    (∃ rest, l = (pySplit sep l).headD [] ++ sep :: rest) ∧
      sep ∉ (pySplit sep l).headD [] := by
  intro l
  induction l with
  | nil => intro h; cases h
  | cons c cs ih =>
    intro h
    simp only [pySplit]
    by_cases hc : c = sep
    · rw [if_pos hc]
      refine ⟨⟨cs, ?_⟩, ?_⟩
      · simp [hc]
      · simp
    · rw [if_neg hc]
      have hcs : sep ∈ cs := by
        rcases List.mem_cons.mp h with he | hm
        · exact absurd he.symm hc
        · exact hm
      obtain ⟨⟨rest, he⟩, hn⟩ := ih hcs
      refine ⟨⟨rest, ?_⟩, ?_⟩
      · simp only [List.headD_cons, List.cons_append]
        rw [← he]
      · simp only [List.headD_cons]
        intro hm
        rcases List.mem_cons.mp hm with he2 | hm2
        · exact hc he2.symm
        · exact hn hm2

theorem pySplit_last_spec (sep : Char) : ∀ l : List Char, sep ∈ l →
    (∃ front, l = front ++ sep :: (pySplit sep l).getLastD []) ∧
      sep ∉ (pySplit sep l).getLastD [] := by
  intro l
  induction l with
  | nil => intro h; cases h
  | cons c cs ih =>
    intro h
    by_cases hcs : sep ∈ cs
    · obtain ⟨⟨front, he⟩, hn⟩ := ih hcs
      have hL : (pySplit sep (c :: cs)).getLastD [] = (pySplit sep cs).getLastD [] := by
        obtain ⟨g, gs, hr⟩ : ∃ g gs, pySplit sep cs = g :: gs := by
          cases hp : pySplit sep cs with
          | nil => exact absurd hp (pySplit_ne_nil sep cs)
          | cons a t => exact ⟨a, t, rfl⟩
        simp only [pySplit]
        by_cases hc : c = sep
        · rw [if_pos hc, hr]
          rw [List.getLastD_cons, List.getLastD_cons]
        · rw [if_neg hc, hr]
          have hlen := pySplit_length2 sep cs hcs
          rw [hr] at hlen
          obtain ⟨g2, gs2, hgs⟩ : ∃ a t, gs = a :: t := by
            cases gs with
            | nil => simp at hlen
            | cons a t => exact ⟨a, t, rfl⟩
          subst hgs
          simp only [List.headD_cons, List.tail_cons]
          rw [List.getLastD_cons, List.getLastD_cons, List.getLastD_cons, List.getLastD_cons]
      rw [hL]
      refine ⟨⟨c :: front, ?_⟩, hn⟩
      rw [List.cons_append, ← he]
    · have hc : c = sep := by
        rcases List.mem_cons.mp h with he | hm
        · exact he.symm
        · exact absurd hm hcs
      have hr : pySplit sep cs = [cs] := pySplit_not_mem sep cs hcs
      have hL : (pySplit sep (c :: cs)).getLastD [] = cs := by
        simp only [pySplit]
        rw [if_pos hc, hr]
        rfl
      rw [hL]
      exact ⟨⟨[], by simp [hc]⟩, hcs⟩

/-- C8: for a two-character code outside us and uk that the alpha-2 reference table
resolves, lookup_country returns the table name cut before its first comma when it
has one, else cut after its last space when it has one, else unchanged. -/
theorem c8_lookup_country (table : String → Option String) (code name : String)
    (_hlen : code.length = 2) (_hus : pyLower code ≠ "us") (_huk : pyLower code ≠ "uk")
    (ht : table code = some name) :
    ∃ r : String, lookup_country table code = some r ∧
      (',' ∈ name.data → (∃ rest, name.data = r.data ++ ',' :: rest) ∧ ',' ∉ r.data) ∧
      (',' ∉ name.data → ' ' ∈ name.data →
        (∃ front, name.data = front ++ ' ' :: r.data) ∧ ' ' ∉ r.data) ∧
      (',' ∉ name.data → ' ' ∉ name.data → r = name) := by
  have hlc : lookup_country table code =
      (if ',' ∈ name.data then some (String.mk ((pySplit ',' name.data).headD []))
       else if ' ' ∈ name.data then some (String.mk ((pySplit ' ' name.data).getLastD []))
       else some name) := by
    simp only [lookup_country]
    rw [ht]
  by_cases hc : ',' ∈ name.data
  · rw [if_pos hc] at hlc
    refine ⟨_, hlc, ?_, ?_, ?_⟩
    · intro _
      have hspec := pySplit_head_spec ',' name.data hc
      simpa using hspec
    · intro h _
      exact absurd hc h
    · intro h _
      exact absurd hc h
  · rw [if_neg hc] at hlc
    by_cases hs : ' ' ∈ name.data
    · rw [if_pos hs] at hlc
      refine ⟨_, hlc, ?_, ?_, ?_⟩
      · intro hmem
        exact absurd hmem hc
      · intro _ _
        have hspec := pySplit_last_spec ' ' name.data hs
        simpa using hspec
      · intro _ h
        exact absurd hs h
    · rw [if_neg hs] at hlc
      exact ⟨name, hlc, fun hmem => absurd hmem hc, fun _ hmem => absurd hmem hs,
        fun _ _ => rfl⟩

/-- C8 witness: the code kr resolves through a table holding the alpha-2 name
Korea, Republic of, which is cut before its first comma. -/
theorem c8_witness :
    tblKr "kr" = some "Korea, Republic of" ∧
    ("kr" : String).length = 2 ∧ pyLower "kr" ≠ "us" ∧ pyLower "kr" ≠ "uk" ∧
    lookup_country tblKr "kr" = some "Korea" ∧
    (∃ r : String, lookup_country tblKr "kr" = some r ∧
      (',' ∈ "Korea, Republic of".data →
        (∃ rest, "Korea, Republic of".data = r.data ++ ',' :: rest) ∧ ',' ∉ r.data) ∧
      (',' ∉ "Korea, Republic of".data → ' ' ∈ "Korea, Republic of".data →
        (∃ front, "Korea, Republic of".data = front ++ ' ' :: r.data) ∧ ' ' ∉ r.data) ∧
      (',' ∉ "Korea, Republic of".data → ' ' ∉ "Korea, Republic of".data →
        r = "Korea, Republic of")) :=
  ⟨rfl, rfl, by decide, by decide, rfl,
    c8_lookup_country tblKr "kr" "Korea, Republic of" rfl (by decide) (by decide) rfl⟩

/-! ## C1 and C2: the country routes -/

theorem filterO_mem (p : Jv → Option Bool) : ∀ (l ys : List Jv), filterO p l = some ys →
    ∀ y ∈ ys, p y = some true := by
  intro l
  induction l with
  | nil =>
    intro ys h y hy
    simp only [filterO] at h
    injection h with h'
    subst h'
    simp at hy
  | cons x xs ih =>
    intro ys h y hy
    simp only [filterO] at h
    rcases hb : p x with _ | b
    · rw [hb] at h
      cases h
    · rw [hb] at h
      rcases hr : filterO p xs with _ | rest
      · rw [hr] at h
        cases h
      · rw [hr] at h
        injection h with h'
        cases b with
        | true =>
          have hys : ys = x :: rest := by simpa using h'.symm
          subst hys
          rcases List.mem_cons.mp hy with he | hm
          · rw [he]
            exact hb
          · exact ih rest hr y hm
        | false =>
          have hys : ys = rest := by simpa using h'.symm
          exact ih rest hr y (hys ▸ hy)

theorem v2SubPred_loc (name : String) (i : Jv) (b : Bool)
    (h : v2SubPred name i = some b) : ∃ s, i.get "location" = some (Jv.str s) := by
  simp only [v2SubPred] at h
  rcases hl : i.get "location" with _ | lv
  · rw [hl] at h
    cases h
  · rw [hl] at h
    cases lv with
    | str s => exact ⟨s, rfl⟩
    | num n => simp [Jv.asStr, Option.bind] at h
    | arr xs => simp [Jv.asStr, Option.bind] at h
    | obj fs => simp [Jv.asStr, Option.bind] at h

theorem v2EqPred_loc (cn : String) (i : Jv) (b : Bool)
    (h : v2EqPred cn i = some b) : ∃ s, i.get "location" = some (Jv.str s) := by
  simp only [v2EqPred] at h
  rcases hl : i.get "location" with _ | lv
  · rw [hl] at h
    cases h
  · rw [hl] at h
    cases lv with
    | str s => exact ⟨s, rfl⟩
    | num n => simp [Jv.asStr, Option.bind] at h
    | arr xs => simp [Jv.asStr, Option.bind] at h
    | obj fs => simp [Jv.asStr, Option.bind] at h

theorem isArr_false_of_get (j : Jv) (k : String) (v : Jv) (h : j.get k = some v) :
    j.isArr = false := by
  cases j with
  | obj fs => rfl
  | str s => exact absurd h (by simp [Jv.get])
  | num n => exact absurd h (by simp [Jv.get])
  | arr xs => exact absurd h (by simp [Jv.get])

theorem get_setF (j : Jv) (k : String) (v : Jv) (j' : Jv) (h : setF j k v = some j') :
    j'.get k = some v := by
  cases j with
  | obj fs =>
    simp only [setF] at h
    injection h with h'
    rw [← h']
    simp only [Jv.get, setField]
    by_cases hany : fs.any (fun p => p.1 == k) = true
    · rw [if_pos hany, find_map_self k v fs hany]
      rfl
    · have h2 : fs.any (fun p => p.1 == k) = false := by rwa [Bool.not_eq_true] at hany
      rw [if_neg (by simp [h2]), find_app_self k v fs h2]
      rfl
  | str s => simp [setF] at h
  | num n => simp [setF] at h
  | arr xs => simp [setF] at h

/-- C1 (amended): on the v2 country route a query matching zero records fails with
HTTP 404 "Item not found"; on the v1 country route a query matching zero records
whose raw data carries dt and ts entries succeeds with HTTP 200 and returns only
those two entries — only a failure inside the try block (unresolvable code or
missing dt/ts) yields the 404 there. -/
theorem c1_country_zero_matches (table : String → Option String) (cn : String) (rawV2 : Jv)
    (records : List Jv) (raw1 : List (String × Jv)) (dtv tsv : Jv) :
    (rawV2.get "data" = some (Jv.arr records) → v2MatchList table records cn = some [] →
      get_country table rawV2 cn = .error ⟨404, "Item not found"⟩) ∧
    (v1MatchDict table raw1 cn = some [] → dictGetJ raw1 "dt" = some dtv →
      dictGetJ raw1 "ts" = some tsv →
      country table raw1 cn = .ok [("dt", dtv), ("ts", tsv)]) := by
  constructor
  · intro h1 h2
    simp only [get_country]
    rw [h1]
    dsimp only [Option.bind, Jv.asArr]
    rw [h2]
    rfl
  · intro g1 g2 g3
    simp only [country]
    rw [g1, g2, g3]
    rfl

/-- C1 counterexample: a v1 country query resolving to zero matching records
returns HTTP 200 carrying only the dt and ts entries instead of failing with 404. -/
theorem c1_counterexample :
    v1MatchDict tblNone raw1w "France" = some [] ∧
    country tblNone raw1w "France" = .ok [("dt", Jv.str "d"), ("ts", Jv.num 9)] :=
  ⟨rfl, rfl⟩

/-- C1 witness: concrete zero-match queries on both routes. -/
theorem c1_witness :
    Jv.get rawV2empty "data" = some (Jv.arr []) ∧
    v2MatchList tblNone [] "France" = some [] ∧
    get_country tblNone rawV2empty "France" = .error ⟨404, "Item not found"⟩ ∧
    country tblNone raw1w "France" = .ok [("dt", Jv.str "d"), ("ts", Jv.num 9)] :=
  ⟨rfl, rfl,
    (c1_country_zero_matches tblNone "France" rawV2empty [] raw1w (Jv.str "d") (Jv.num 9)).1
      rfl rfl,
    (c1_country_zero_matches tblNone "France" rawV2empty [] raw1w (Jv.str "d") (Jv.num 9)).2
      rfl rfl rfl⟩

/-- C2 (amended): a successfully resolved v2 country query returns a value whose
data field holds the first record of the computed match list itself — a single
object carrying a location field, not an array of records. -/
theorem c2_data_single_record (table : String → Option String) (raw : Jv) (cn : String)
    (out : Jv) (h : get_country table raw cn = .ok out) :
    ∃ records ms first s,
      (raw.get "data").bind Jv.asArr = some records ∧
      v2MatchList table records cn = some ms ∧
      ms.head? = some first ∧
      out.get "data" = some first ∧
      first.get "location" = some (Jv.str s) ∧
      first.isArr = false := by
  simp only [get_country] at h
  rcases h1 : (raw.get "data").bind Jv.asArr with _ | records
  · rw [h1] at h
    cases h
  · rw [h1] at h
    dsimp only [Option.bind] at h
    rcases h2 : v2MatchList table records cn with _ | ms
    · rw [h2] at h
      cases h
    · rw [h2] at h
      dsimp only [Option.bind] at h
      rcases h3 : ms.head? with _ | first
      · rw [h3] at h
        cases h
      · rw [h3] at h
        dsimp only [Option.bind] at h
        rcases h4 : setF raw "data" first with _ | out'
        · rw [h4] at h
          cases h
        · rw [h4] at h
          have hoo : out' = out := by
            injection h
          subst hoo
          have hget : out'.get "data" = some first := get_setF raw "data" first out' h4
          have hmem : first ∈ ms := by
            cases ms with
            | nil => cases h3
            | cons a t =>
              have ha : a = first := by simpa using h3
              rw [← ha]
              exact List.mem_cons_self a t
          have h2o := h2
          simp only [v2MatchList] at h2
          by_cases hcq : isCodeQuery cn = true
          · rw [if_pos hcq] at h2
            rcases h5 : lookup_country table cn with _ | nm
            · rw [h5] at h2
              cases h2
            · rw [h5] at h2
              have hp := filterO_mem _ _ _ h2 first hmem
              obtain ⟨s, hs⟩ := v2SubPred_loc nm first true hp
              exact ⟨records, ms, first, s, rfl, h2o, h3, hget, hs,
                isArr_false_of_get _ _ _ hs⟩
          · rw [if_neg hcq] at h2
            have hp := filterO_mem _ _ _ h2 first hmem
            obtain ⟨s, hs⟩ := v2EqPred_loc cn first true hp
            exact ⟨records, ms, first, s, rfl, h2o, h3, hget, hs,
              isArr_false_of_get _ _ _ hs⟩

/-- C2 counterexample: a resolved v2 country query with two matching records whose
returned data field is the first matching record object alone, not an array. -/
theorem c2_counterexample :
    v2MatchList tblNone [rec2A, rec2B] "Thailand" = some [rec2A, rec2B] ∧
    get_country tblNone raw2Two "Thailand" = .ok out2Two ∧
    Jv.get out2Two "data" = some rec2A ∧ rec2A.isArr = false :=
  ⟨rfl, rfl, rfl, rfl⟩

/-- C2 witness: the amended statement instantiated on the two-match Thailand query. -/
theorem c2_witness :
    ∃ records ms first s,
      (Jv.get raw2Two "data").bind Jv.asArr = some records ∧
      v2MatchList tblNone records "Thailand" = some ms ∧
      ms.head? = some first ∧
      Jv.get out2Two "data" = some first ∧
      first.get "location" = some (Jv.str s) ∧
      first.isArr = false :=
  c2_data_single_record tblNone raw2Two "Thailand" out2Two rfl

/-! ## C9: the six plain v2 routes surface facade failures as HTTP 400 -/

/-- C9: for every v2 route in current, total, confirmed, deaths, recovered and
active, a facade call that raises is surfaced as HTTP 400 whose detail is the raw
text of the exception. -/
theorem c9_v2_routes_400 (e : String) :
    get_current (.error e) = .error ⟨400, e⟩ ∧
    get_total (.error e) = .error ⟨400, e⟩ ∧
    get_confirmed (.error e) = .error ⟨400, e⟩ ∧
    get_deaths (.error e) = .error ⟨400, e⟩ ∧
    get_recovered (.error e) = .error ⟨400, e⟩ ∧
    get_active (.error e) = .error ⟨400, e⟩ :=
  ⟨rfl, rfl, rfl, rfl, rfl, rfl⟩

/-! ## C5: the backward probe loop never finishes when no resource exists -/

/-- C5 (code evaluated at the failing input): when no date has an existing resource,
the probe loop of get_data_daily_reports runs out of any amount of fuel without
producing a snapshot date — it probes indefinitely and there is no lookback bound
nor any UpstreamNotFound failure in the code. -/
theorem c5_probe_never_finishes :
    (∀ (ref : Int) (fuel k : Nat), probeAux (fun _ => false) ref fuel k = none) ∧
    (∀ (ref : Int) (fuel : Nat), probe (fun _ => false) ref fuel = none) := by
  have h : ∀ (ref : Int) (fuel k : Nat), probeAux (fun _ => false) ref fuel k = none := by
    intro ref fuel
    induction fuel with
    | zero => intro k; rfl
    | succ n ih =>
      intro k
      simp only [probeAux, Bool.false_eq_true, if_false]
      exact ih (k + 1)
  exact ⟨h, fun ref fuel => h ref fuel 0⟩

/-! ## C6: cache-aside semantics of reload_model_api_v2 -/

/-- C6: against an initially empty store, the first call builds exactly once and
stores the serialized model with TTL 3600; any later call while the entry is live
builds zero times, returns the deserialized stored value unchanged and leaves the
store unchanged; the first call at or after expiry builds again. -/
theorem c6_reload_model_api_v2 {α σ : Type} (builder : Unit → α) (dumps : α → σ)
    (loads : σ → α) (t0 t1 t2 : Nat) (r0 : ReloadResult α σ)
    (hround : loads (dumps (builder ())) = builder ())
    (h0 : reload_model_api_v2 builder dumps loads t0 ⟨none⟩ = r0) :
    r0.builderCalls = 1 ∧
    r0.model = builder () ∧
    r0.state.entry = some (dumps (builder ()), t0 + 3600) ∧
    (t1 < t0 + 3600 →
      (reload_model_api_v2 builder dumps loads t1 r0.state).builderCalls = 0 ∧
      (reload_model_api_v2 builder dumps loads t1 r0.state).model = builder () ∧
      (reload_model_api_v2 builder dumps loads t1 r0.state).state = r0.state) ∧
    (t0 + 3600 ≤ t2 →
      (reload_model_api_v2 builder dumps loads t2 r0.state).builderCalls = 1) := by
  have hr0 : r0 = ⟨builder (), ⟨some (dumps (builder ()), t0 + 3600)⟩, 1⟩ := by
    rw [← h0]; rfl
  subst hr0
  refine ⟨rfl, rfl, rfl, ?_, ?_⟩
  · intro h
    have hget : redisGet (⟨some (dumps (builder ()), t0 + 3600)⟩ : CacheState σ) t1 =
        some (dumps (builder ())) := by
      simp only [redisGet]
      rw [if_pos h]
    refine ⟨?_, ?_, ?_⟩
    · dsimp only [reload_model_api_v2]
      rw [hget]
    · dsimp only [reload_model_api_v2]
      rw [hget]
      exact hround
    · dsimp only [reload_model_api_v2]
      rw [hget]
  · intro h
    have hget : redisGet (⟨some (dumps (builder ()), t0 + 3600)⟩ : CacheState σ) t2 = none := by
      simp only [redisGet]
      rw [if_neg (by omega)]
    dsimp only [reload_model_api_v2]
    rw [hget]

/-- C6 witness at a concrete builder, identity serialization and concrete times. -/
theorem c6_witness :
    (reload_model_api_v2 (fun _ => (42 : Nat)) id id 0 ⟨none⟩).builderCalls = 1 ∧
    (reload_model_api_v2 (fun _ => (42 : Nat)) id id 0 ⟨none⟩).model = 42 ∧
    (reload_model_api_v2 (fun _ => (42 : Nat)) id id 0 ⟨none⟩).state.entry = some (42, 3600) ∧
    (reload_model_api_v2 (fun _ => (42 : Nat)) id id 10
      (reload_model_api_v2 (fun _ => (42 : Nat)) id id 0 ⟨none⟩).state).builderCalls = 0 ∧
    (reload_model_api_v2 (fun _ => (42 : Nat)) id id 10
      (reload_model_api_v2 (fun _ => (42 : Nat)) id id 0 ⟨none⟩).state).model = 42 ∧
    (reload_model_api_v2 (fun _ => (42 : Nat)) id id 3600
      (reload_model_api_v2 (fun _ => (42 : Nat)) id id 0 ⟨none⟩).state).builderCalls = 1 := by
  obtain ⟨h1, h2, h3, h4, h5⟩ :=
    c6_reload_model_api_v2 (fun _ => (42 : Nat)) id id 0 10 3600 _ rfl rfl
  obtain ⟨h41, h42, _⟩ := h4 (by decide)
  exact ⟨h1, h2, h3, h41, h42, h5 (by decide)⟩

/-! ## C7: time-series case gating -/

/-- C7: the v1 timeseries route answers only the cases confirmed, deaths, recovered
and fails with 404 "Item not found" otherwise (in particular for active), and the
v2 timeseries route answers exactly the cases global, confirmed, deaths, recovered
and fails with 404 "Item not found" otherwise; both compare the case lowercased. -/
theorem c7_timeseries_gating (raw : List (String × Jv)) (facade : String → Jv) (cs : String) :
    ((pyLower cs == "confirmed" || pyLower cs == "deaths" || pyLower cs == "recovered") = false →
      timeseries raw cs = some (.error ⟨404, "Item not found"⟩)) ∧
    (∀ resp, timeseries raw cs = some (.ok resp) →
      (pyLower cs == "confirmed" || pyLower cs == "deaths" || pyLower cs == "recovered") = true) ∧
    (timeseries raw "active" = some (.error ⟨404, "Item not found"⟩)) ∧
    ((pyLower cs == "global" || pyLower cs == "confirmed" || pyLower cs == "deaths" ||
        pyLower cs == "recovered") = false →
      get_time_series facade cs = .error ⟨404, "Item not found"⟩) ∧
    ((pyLower cs == "global" || pyLower cs == "confirmed" || pyLower cs == "deaths" ||
        pyLower cs == "recovered") = true →
      get_time_series facade cs = .ok (facade (pyLower cs))) := by
  refine ⟨?_, ?_, ?_, ?_, ?_⟩
  · intro h
    simp only [timeseries]
    rw [h]
    rfl
  · intro resp h
    cases hc : (pyLower cs == "confirmed" || pyLower cs == "deaths" ||
        pyLower cs == "recovered") with
    | true => rfl
    | false =>
      simp only [timeseries] at h
      rw [hc] at h
      simp at h
  · have h : (pyLower "active" == "confirmed" || pyLower "active" == "deaths" ||
        pyLower "active" == "recovered") = false := by decide
    simp only [timeseries]
    rw [h]
    rfl
  · intro h
    simp only [get_time_series]
    rw [h]
    rfl
  · intro h
    simp only [get_time_series]
    rw [h]
    rfl

/-- C7 witness: the bogus and active cases answer 404 on both facades, and the
confirmed case passes the v2 gate. -/
theorem c7_witness :
    timeseries raw1w "bogus" = some (.error ⟨404, "Item not found"⟩) ∧
    timeseries raw1w "active" = some (.error ⟨404, "Item not found"⟩) ∧
    get_time_series facadeW "bogus" = .error ⟨404, "Item not found"⟩ ∧
    get_time_series facadeW "confirmed" = .ok (facadeW "confirmed") := by
  obtain ⟨h1, _, h3, h4, _⟩ := c7_timeseries_gating raw1w facadeW "bogus"
  obtain ⟨_, _, _, _, h5c⟩ := c7_timeseries_gating raw1w facadeW "confirmed"
  refine ⟨h1 (by decide), h3, h4 (by decide), ?_⟩
  have hpc : pyLower "confirmed" = "confirmed" := by decide
  have := h5c (by decide)
  rwa [hpc] at this

end Covid
